import Mathlib

/-!
# Verification of the website-reports monthly report pipeline

Shallow embedding of the report-generation pipeline of the
`website-reports` Cloudflare Worker (period calculation, source adapters,
aggregation under partial failure, snapshot assembly), with theorems
settling the specification's claims about it.

Modelling conventions:
* JavaScript numbers that hold counters are modelled as `Int`;
  fractional arithmetic (percentages, Lighthouse raw scores,
  `Math.random()` draws) is modelled as `ℚ`.
* Strings are ASCII throughout the pipeline, so JavaScript's UTF-16
  `slice`/`includes`/comparison coincide with `List Char` operations.
* Network calls are modelled as explicit arguments carrying the upstream
  outcome (`Except String result` for a call that can throw).
* `Array.prototype.sort` (stable since ES2019) is modelled by insertion
  sort, which computes the same list as any stable sort under the same
  comparator.
-/

namespace WebsiteReports

/-! ## Small string helpers (JS `slice`, `includes`, digits) -/

/-- Decimal digit character, as produced by `Date.prototype.toISOString`'s
fixed-width numeric fields. -/
def digitChar (d : Nat) : Char :=
  match d with
  | 0 => '0' | 1 => '1' | 2 => '2' | 3 => '3' | 4 => '4'
  | 5 => '5' | 6 => '6' | 7 => '7' | 8 => '8' | _ => '9'

/-- Numeric value of a decimal digit character. -/
def digitVal (c : Char) : Nat := c.toNat - 48

/-- Whether `c` matches the regex class `\d`. -/
def isJsDigit (c : Char) : Bool := '0' ≤ c && c ≤ '9'

/-- Two-digit zero-padded field of an ISO date (`MM`, `DD`). -/
def pad2 (n : Nat) : List Char := [digitChar (n / 10 % 10), digitChar (n % 10)]

/-- Four-digit zero-padded year field of an ISO date. -/
def pad4 (n : Nat) : List Char :=
  [digitChar (n / 1000 % 10), digitChar (n / 100 % 10),
   digitChar (n / 10 % 10), digitChar (n % 10)]

/-- Six-digit zero-padded year field of an ISO extended-year date
(`+YYYYYY`), used by `toISOString` for years above 9999. -/
def pad6 (n : Nat) : List Char :=
  [digitChar (n / 100000 % 10), digitChar (n / 10000 % 10),
   digitChar (n / 1000 % 10), digitChar (n / 100 % 10),
   digitChar (n / 10 % 10), digitChar (n % 10)]

/-- JavaScript `s.slice(0, n)` on an ASCII string. -/
def jsSlice (s : String) (n : Nat) : String := String.mk (s.data.take n)

/-- Does `pat` occur at the head of `hay`? -/
def leadMatch : List Char → List Char → Bool
  | [], _ => true
  | _ :: _, [] => false
  | p :: ps, h :: hs => p == h && leadMatch ps hs

/-- Does `pat` occur anywhere in `hay`? -/
def occursIn (pat : List Char) : List Char → Bool
  | [] => leadMatch pat []
  | h :: hs => leadMatch pat (h :: hs) || occursIn pat hs

/-- JavaScript `hay.includes(pat)` on ASCII strings. -/
def jsIncludes (hay pat : String) : Bool := occursIn pat.data hay.data

/-! ## Calendar dates and JavaScript `Date.UTC` semantics

Only first-of-month and in-month dates ever arise in the pipeline, so a
date is a plain `(year, month, day)` triple with `month ∈ 1..12`. -/

/-- A UTC calendar date as held by a JavaScript `Date` in this pipeline. -/
structure CalDate where
  year : Nat
  month : Nat
  day : Nat
  deriving DecidableEq, Repr

/-- First day of the month that lies `t` calendar months after month 1 of
year 0 (the normalisation `Date.UTC` applies to an out-of-range month
index). -/
def dateOfMonths (t : Int) : CalDate :=
  ⟨(t / 12).toNat, (t % 12).toNat + 1, 1⟩

/-- The `Date.UTC(year, monthIndex, 1)`: JavaScript maps a year argument
between 0 and 99 to 1900–1999 (the two-digit-year rule) and normalises an
out-of-range zero-based month index into the year. -/
def jsDateUTC (year : Int) (monthIndex : Int) : CalDate :=
  let y : Int := if 0 ≤ year ∧ year ≤ 99 then year + 1900 else year
  dateOfMonths (12 * y + monthIndex)

/-- The `shiftMonth` from `period.ts`: first of the month `offset` months away
from `date`'s month, via `Date.UTC(date.getUTCFullYear(),
date.getUTCMonth() + offset, 1)`. -/
def shiftMonth (date : CalDate) (offset : Int) : CalDate :=
  jsDateUTC (date.year : Int) ((date.month : Int) - 1 + offset)

/-- The `toIsoDate` from `period.ts`: `date.toISOString().slice(0, 10)`.
For years up to 9999 this is `YYYY-MM-DD`; for larger years
`toISOString` uses the expanded `+YYYYYY-MM-DD…` form, of which the first
ten UTF-16 units are `+YYYYYY-MM`. -/
def toIsoDate (d : CalDate) : String :=
  if d.year ≤ 9999 then
    String.mk (pad4 d.year ++ '-' :: pad2 d.month ++ '-' :: pad2 d.day)
  else
    String.mk ('+' :: pad6 d.year ++ '-' :: pad2 d.month)

/-! ## Period calculation (`period.ts`) -/

/-- The `MonthPeriod` from `types.ts`. -/
structure MonthPeriod where
  monthKey : String
  startDate : String
  endDateExclusive : String
  prevMonthKey : String
  prevStartDate : String
  prevEndDateExclusive : String
  startDateTime : String
  endDateTimeExclusive : String
  prevStartDateTime : String
  prevEndDateTimeExclusive : String
  deriving DecidableEq, Repr

/-- The `parseMonthOverride` from `period.ts`: match against
`/^(\d{4})-(\d{2})$/`, check the month range, and build
`Date.UTC(year, month - 1, 1)`. -/
def parseMonthOverride (monthOverride : String) : Except String CalDate :=
  match monthOverride.data with
  | [c1, c2, c3, c4, dash, c5, c6] =>
    if isJsDigit c1 && isJsDigit c2 && isJsDigit c3 && isJsDigit c4
        && dash == '-' && isJsDigit c5 && isJsDigit c6 then
      let year : Nat :=
        1000 * digitVal c1 + 100 * digitVal c2 + 10 * digitVal c3 + digitVal c4
      let month : Nat := 10 * digitVal c5 + digitVal c6
      if month < 1 ∨ month > 12 then
        .error "month must be between 01 and 12"
      else
        .ok (jsDateUTC (year : Int) ((month : Int) - 1))
    else
      .error "month must use YYYY-MM format"
  | _ => .error "month must use YYYY-MM format"

/-- The record literal returned by `buildMonthPeriod` in `period.ts`,
given the already-resolved `targetMonthStart`. -/
def buildMonthPeriodOfStart (targetMonthStart : CalDate) : MonthPeriod :=
  let targetMonthEnd := shiftMonth targetMonthStart 1
  let previousMonthStart := shiftMonth targetMonthStart (-1)
  let previousMonthEnd := targetMonthStart
  { monthKey := jsSlice (toIsoDate targetMonthStart) 7
    startDate := toIsoDate targetMonthStart
    endDateExclusive := toIsoDate targetMonthEnd
    prevMonthKey := jsSlice (toIsoDate previousMonthStart) 7
    prevStartDate := toIsoDate previousMonthStart
    prevEndDateExclusive := toIsoDate previousMonthEnd
    startDateTime := toIsoDate targetMonthStart ++ "T00:00:00Z"
    endDateTimeExclusive := toIsoDate targetMonthEnd ++ "T00:00:00Z"
    prevStartDateTime := toIsoDate previousMonthStart ++ "T00:00:00Z"
    prevEndDateTimeExclusive := toIsoDate previousMonthEnd ++ "T00:00:00Z" }

/-- The `buildMonthPeriod` from `period.ts`: an override is parsed and
validated; without one, the target month is the month before `now`. -/
def buildMonthPeriod (now : CalDate) (monthOverride : Option String) :
    Except String MonthPeriod :=
  match monthOverride with
  | some s => (parseMonthOverride s).map buildMonthPeriodOfStart
  | none =>
    .ok (buildMonthPeriodOfStart
      (shiftMonth ⟨now.year, now.month, 1⟩ (-1)))

/-! ## Traffic data model (`types.ts`) -/

/-- The `DailyTrafficPoint` from `types.ts`. -/
structure DailyTrafficPoint where
  date : String
  requests : Int
  uniques : Int
  bytes : Int
  deriving DecidableEq, Repr

/-- The `WeeklyTrafficRow` from `types.ts`. -/
structure WeeklyTrafficRow where
  label : String
  requests : Int
  uniques : Int
  bytes : Int
  deriving DecidableEq, Repr

/-! ## Weekly breakdown (`period.ts`)

`buildWeeklyBreakdown` walks a `Date` cursor from `startDate` (the first
of the report month) to `endDateExclusive` (the first of the next month)
in steps of at most 7 days, so the days it visits are exactly days
`1 .. daysInMonth` of the report month, grouped into consecutive runs of
7 with a truncated final run. -/

/-- Gregorian leap-year rule, as implemented by JavaScript `Date`. -/
def isLeapYear (y : Nat) : Bool :=
  y % 4 == 0 && (y % 100 != 0 || y % 400 == 0)

/-- Number of days of month `m` of year `y` (JavaScript `Date`
normalisation). Months outside `1..12` do not arise. -/
def daysInMonth (y m : Nat) : Nat :=
  match m with
  | 2 => if isLeapYear y then 29 else 28
  | 4 => 30 | 6 => 30 | 9 => 30 | 11 => 30
  | _ => 31

/-- The days the cursor of `buildWeeklyBreakdown` visits for the month
`(y, m)`: days 1 to `daysInMonth y m`, in order. -/
def monthDays (y m : Nat) : List CalDate :=
  (List.range (daysInMonth y m)).map (fun i => ⟨y, m, i + 1⟩)

/-- Split a list into consecutive runs of 7 (the `weekEnd = cursor + 7,
capped at monthEnd` stepping of the source's outer loop). -/
def chunk7 : List CalDate → List (List CalDate)
  | [] => []
  | x :: t => ((x :: t).take 7) :: chunk7 ((x :: t).drop 7)
  termination_by l => l.length
  decreasing_by simp; omega

/-- The weekly windows `buildWeeklyBreakdown` forms for month `(y, m)`. -/
def weeklyWindows (y m : Nat) : List (List CalDate) := chunk7 (monthDays y m)

/-- The `byDate.get(key)`: JavaScript `Map.set` keeps the last point written
for a date, so lookup returns the last matching element. -/
def byDateGet (daily : List DailyTrafficPoint) (key : String) :
    Option DailyTrafficPoint :=
  daily.foldl (fun acc p => if p.date = key then some p else acc) none

/-- The `Intl.DateTimeFormat("en-US", { month: "short" })` month names. -/
def shortMonthName (m : Nat) : String :=
  match m with
  | 1 => "Jan" | 2 => "Feb" | 3 => "Mar" | 4 => "Apr"
  | 5 => "May" | 6 => "Jun" | 7 => "Jul" | 8 => "Aug"
  | 9 => "Sep" | 10 => "Oct" | 11 => "Nov" | _ => "Dec"

/-- The `formatDay` from `period.ts` (`en-US`, UTC): e.g. `"Jan 5"`. -/
def formatDay (d : CalDate) : String :=
  shortMonthName d.month ++ " " ++ Nat.repr d.day

/-- The row built for one weekly window: summed requests/uniques/bytes of
the days that have a data point, with the source's label format. -/
def weeklyRowOf (daily : List DailyTrafficPoint) (weekIndex : Nat)
    (week : List CalDate) : WeeklyTrafficRow :=
  let pts := week.filterMap (fun d => byDateGet daily (toIsoDate d))
  { label := "Week " ++ Nat.repr weekIndex ++ " (" ++
      formatDay (week.headD ⟨0, 1, 1⟩) ++ " - " ++
      formatDay (week.getLastD ⟨0, 1, 1⟩) ++ ")"
    requests := (pts.map (·.requests)).sum
    uniques := (pts.map (·.uniques)).sum
    bytes := (pts.map (·.bytes)).sum }

/-- The `buildWeeklyBreakdown` from `period.ts`, for a month period
`[first of (y, m), first of the next month)`. -/
def buildWeeklyBreakdown (daily : List DailyTrafficPoint) (y m : Nat) :
    List WeeklyTrafficRow :=
  (weeklyWindows y m).enum.map (fun iw => weeklyRowOf daily (iw.1 + 1) iw.2)

/-! ## Stable sorting (JavaScript `Array.prototype.sort`)

Every `sort` in the pipeline uses a numeric or string comparator.
`Array.prototype.sort` is stable, and a stable sort is uniquely
determined by its comparator, so each is embedded as an insertion sort
keyed by the compared field. -/

section StableSort

variable {α : Type} {β : Type} [LinearOrder β] (key : α → β)

/-- The `arr.sort((a, b) => key(b) - key(a))` (descending by `key`, stable). -/
def sortDescBy (l : List α) : List α :=
  l.insertionSort (fun a b => key b ≤ key a)

/-- The `arr.sort((a, b) => cmp(key(a), key(b)))` (ascending by `key`,
stable). -/
def sortAscBy (l : List α) : List α :=
  l.insertionSort (fun a b => key a ≤ key b)

/-- Strict "descending, ties in first-seen order" relation: the order a
stable descending sort guarantees between any two output positions when
the input is `R`-ordered. -/
def DescStable (R : α → α → Prop) (a b : α) : Prop :=
  key b < key a ∨ (key a = key b ∧ R a b)

theorem pairwise_orderedInsert_desc (R : α → α → Prop) (x : α)
    (L : List α) (hL : List.Pairwise (DescStable key R) L)
    (hR : ∀ b ∈ L, R x b) :
    List.Pairwise (DescStable key R)
      (L.orderedInsert (fun a b => key b ≤ key a) x) := by
  induction L with
  | nil => simp [List.orderedInsert, DescStable]
  | cons b L ih =>
    rw [List.pairwise_cons] at hL
    rw [List.orderedInsert]
    by_cases h : key b ≤ key x
    · rw [if_pos h]
      refine List.Pairwise.cons (fun c hc => ?_) (List.pairwise_cons.mpr hL)
      rcases List.mem_cons.mp hc with rfl | hc
      · rcases lt_or_eq_of_le h with hlt | heq
        · exact Or.inl hlt
        · exact Or.inr ⟨heq.symm, hR c (List.mem_cons_self _ _)⟩
      · rcases hL.1 c hc with hlt | ⟨heq, _⟩
        · exact Or.inl (lt_of_lt_of_le hlt h)
        · rcases lt_or_eq_of_le (heq ▸ h) with hlt | heq2
          · exact Or.inl hlt
          · exact Or.inr ⟨heq2.symm, hR c (List.mem_cons_of_mem _ hc)⟩
    · rw [if_neg h]
      refine List.Pairwise.cons (fun c hc => ?_) ?_
      · rcases (List.mem_orderedInsert _).mp hc with rfl | hc
        · exact Or.inl (lt_of_not_le h)
        · exact hL.1 c hc
      · exact ih hL.2 (fun c hc => hR c (List.mem_cons_of_mem _ hc))

/-- Stability of the descending sort: if the input is pairwise `R`-ordered
(e.g. listed in first-seen order), the output is descending by `key` with
ties still `R`-ordered. -/
theorem pairwise_sortDescBy (R : α → α → Prop) (l : List α)
    (hl : List.Pairwise R l) :
    List.Pairwise (DescStable key R) (sortDescBy key l) := by
  induction l with
  | nil => simp [sortDescBy, List.insertionSort]
  | cons x t ih =>
    rw [List.pairwise_cons] at hl
    exact pairwise_orderedInsert_desc key R x _ (ih hl.2)
      (fun b hb => hl.1 b ((List.mem_insertionSort _).mp hb))

theorem perm_sortDescBy (l : List α) : List.Perm (sortDescBy key l) l :=
  List.perm_insertionSort _ l

theorem perm_sortAscBy (l : List α) : List.Perm (sortAscBy key l) l :=
  List.perm_insertionSort _ l

theorem pairwise_le_orderedInsert_asc (x : α) (L : List α)
    (hL : List.Pairwise (fun a b => key a ≤ key b) L) :
    List.Pairwise (fun a b => key a ≤ key b)
      (L.orderedInsert (fun a b => key a ≤ key b) x) := by
  induction L with
  | nil => simp
  | cons b L ih =>
    rw [List.pairwise_cons] at hL
    rw [List.orderedInsert]
    by_cases h : key x ≤ key b
    · rw [if_pos h]
      refine List.Pairwise.cons (fun c hc => ?_) (List.pairwise_cons.mpr hL)
      rcases List.mem_cons.mp hc with rfl | hc
      · exact h
      · exact le_trans h (hL.1 c hc)
    · rw [if_neg h]
      refine List.Pairwise.cons (fun c hc => ?_) (ih hL.2)
      rcases (List.mem_orderedInsert _).mp hc with rfl | hc
      · exact le_of_not_le h
      · exact hL.1 c hc

/-- The ascending sort is sorted ascending by `key`. -/
theorem pairwise_le_sortAscBy (l : List α) :
    List.Pairwise (fun a b => key a ≤ key b) (sortAscBy key l) := by
  induction l with
  | nil => simp [sortAscBy, List.insertionSort]
  | cons x t ih => exact pairwise_le_orderedInsert_asc key x _ ih

end StableSort

/-! ## First-seen-order deduplication (JS `Set` / `Map` insertion order) -/

/-- The `Array.from(new Set(xs))`: first occurrence of each element, in
first-seen order. -/
def dedupKeepFirst {α : Type} [DecidableEq α] (xs : List α) : List α :=
  xs.foldl (fun acc x => if x ∈ acc then acc else acc ++ [x]) []

/-! ## Security aggregation (`reporting.ts`: `buildSecuritySnapshot`) -/

/-- The `SecurityEventGroup` from `types.ts`. -/
structure SecurityEventGroup where
  source : String
  action : String
  count : Int
  deriving DecidableEq, Repr

/-- The `SecurityCategoryRow` from `types.ts`. -/
structure SecurityCategoryRow where
  label : String
  count : Int
  deriving DecidableEq, Repr

/-- The `SecuritySnapshot` from `types.ts`. -/
structure SecuritySnapshot where
  totalFirewallActions : Int
  botRateLimitActions : Int
  topCategories : List SecurityCategoryRow
  deriving DecidableEq, Repr

/-- Membership of the lower-cased action in the `firewallActions` set. -/
def isFirewallAction (action : String) : Bool :=
  ["block", "challenge", "js_challenge", "managed_challenge"].contains
    action.toLower

/-- The bot/rate-limit test: lower-cased action, else lower-cased source,
contains `"bot"` or `"rate"`. -/
def isBotRateGroup (g : SecurityEventGroup) : Bool :=
  jsIncludes g.action.toLower "bot" || jsIncludes g.action.toLower "rate"
    || jsIncludes g.source.toLower "bot" || jsIncludes g.source.toLower "rate"

/-- The category label `` `${group.source}/${group.action}` ``. -/
def catLabel (g : SecurityEventGroup) : String := g.source ++ "/" ++ g.action

/-- The `byCategory.set(label, (byCategory.get(label) ?? 0) + count)` on a
JS `Map` held as an association list in insertion order: an existing key
keeps its position, a new key is appended. -/
def upsertAssoc (label : String) (c : Int) :
    List (String × Int) → List (String × Int)
  | [] => [(label, c)]
  | (l, n) :: t =>
    if l = label then (l, n + c) :: t else (l, n) :: upsertAssoc label c t

/-- The `byCategory` map after the loop of `buildSecuritySnapshot`:
per-label count sums, keys in first-seen order. -/
def rollupCategories (groups : List SecurityEventGroup) :
    List (String × Int) :=
  groups.foldl (fun acc g => upsertAssoc (catLabel g) g.count acc) []

/-- The `buildSecuritySnapshot` from `reporting.ts`. -/
def buildSecuritySnapshot (groups : List SecurityEventGroup) :
    SecuritySnapshot :=
  { totalFirewallActions :=
      ((groups.filter (fun g => isFirewallAction g.action)).map (·.count)).sum
    botRateLimitActions :=
      ((groups.filter isBotRateGroup).map (·.count)).sum
    topCategories :=
      ((sortDescBy (fun e => e.2) (rollupCategories groups)).take 3).map
        (fun e => ⟨e.1, e.2⟩) }

/-! ## Performance adapter (`pagespeed.ts`) -/

/-- The `Math.round`: half-up rounding (toward positive infinity on ties). -/
def jsRound (q : ℚ) : Int := Int.floor (q + 1 / 2)

/-- The `normalizeScore` from `pagespeed.ts`. The argument is `none` for a
non-number (absent score); JavaScript numbers are modelled as `ℚ` (the
non-finite cases `NaN`/`±Infinity` fail every range test and return
`null` exactly like `none` does). -/
def normalizeScore (rawScore : Option ℚ) : Option Int :=
  match rawScore with
  | none => none
  | some q =>
    if 0 ≤ q ∧ q ≤ 1 then some (jsRound (q * 100))
    else if 1 < q ∧ q ≤ 100 then some (jsRound q)
    else none

/-- The `LighthouseScores` from `types.ts`. -/
structure LighthouseScores where
  performance : Option Int
  accessibility : Option Int
  bestPractices : Option Int
  seo : Option Int
  deriving DecidableEq, Repr

/-- The `CoreWebVital` from `types.ts`. -/
structure CoreWebVital where
  id : String
  title : String
  displayValue : String
  numericValue : Option ℚ
  deriving DecidableEq, Repr

/-- The `PageSpeedOpportunity` from `types.ts`. -/
structure PageSpeedOpportunity where
  title : String
  description : String
  savingsMs : Int
  deriving DecidableEq, Repr

/-- The `PageSpeedResult` from `types.ts`. -/
structure PageSpeedResult where
  url : String
  mobile : LighthouseScores
  desktop : LighthouseScores
  mobileVitals : List CoreWebVital
  desktopVitals : List CoreWebVital
  opportunities : List PageSpeedOpportunity
  deriving DecidableEq, Repr

/-- The `PageSpeedBundle` returned by `fetchPageSpeedForUrls`. -/
structure PageSpeedBundle where
  results : List PageSpeedResult
  warnings : List String
  deriving DecidableEq, Repr

/-- The `emptyScores()` from `pagespeed.ts`. -/
def emptyScores : LighthouseScores := ⟨none, none, none, none⟩

/-- The `SingleRunResult` from `pagespeed.ts`: the value a successful
`runPageSpeed` probe resolves to. -/
structure SingleRunResult where
  scores : LighthouseScores
  vitals : List CoreWebVital
  opportunities : List PageSpeedOpportunity
  deriving DecidableEq, Repr

/-- The `emptyRunResult()` from `pagespeed.ts`. -/
def emptyRunResult : SingleRunResult := ⟨emptyScores, [], []⟩

/-- A probe device strategy. -/
inductive Strategy where
  | mobile
  | desktop
  deriving DecidableEq, Repr

/-- Name used in query parameters and warning messages. -/
def Strategy.name : Strategy → String
  | .mobile => "mobile"
  | .desktop => "desktop"

/-- The outcome of each `runPageSpeed(apiKey, url, strategy)` network
probe, supplied as an explicit oracle. -/
def ProbeOracle : Type := String → Strategy → Except String SingleRunResult

/-- The warning string pushed when a probe rejects. -/
def psWarn (strat : Strategy) (url : String) (err : String) : String :=
  "PageSpeed " ++ strat.name ++ " failed for " ++ url ++ ": " ++ err

/-- The `runPageSpeed(...).catch(...)`: a rejected probe degrades to
`emptyRunResult()` plus a warning naming the device and URL. -/
def runOutcome (probe : ProbeOracle) (url : String) (strat : Strategy) :
    SingleRunResult × List String :=
  match probe url strat with
  | .ok r => (r, [])
  | .error e => (emptyRunResult, [psWarn strat url e])

/-- One `opMap.set` step of the opportunity merge: an existing title keeps
its position and keeps the larger `savingsMs`; a new title is appended. -/
def upsertOpp (op : PageSpeedOpportunity) :
    List PageSpeedOpportunity → List PageSpeedOpportunity
  | [] => [op]
  | o :: t =>
    if o.title = op.title then
      (if op.savingsMs > o.savingsMs then op else o) :: t
    else o :: upsertOpp op t

/-- The opportunity merge in `fetchPageSpeedForUrls`: dedupe mobile and
desktop opportunities by title keeping the highest savings, then sort by
savings descending and keep the top 5. -/
def mergeOpportunities (xs ys : List PageSpeedOpportunity) :
    List PageSpeedOpportunity :=
  (sortDescBy (·.savingsMs) ((xs ++ ys).foldl (fun acc o => upsertOpp o acc) [])).take 5

/-- The body of the per-URL loop of `fetchPageSpeedForUrls`: the
`PageSpeedResult` pushed for `url` and the warnings its two probes push.
(The two probes run under `Promise.all`; when both reject, the relative
order of their two warning pushes depends on rejection timing, and is
fixed here as mobile before desktop.) -/
def processUrl (probe : ProbeOracle) (url : String) :
    PageSpeedResult × List String :=
  let mobile := runOutcome probe url .mobile
  let desktop := runOutcome probe url .desktop
  ({ url := url
     mobile := mobile.1.scores
     desktop := desktop.1.scores
     mobileVitals := mobile.1.vitals
     desktopVitals := desktop.1.vitals
     opportunities :=
       mergeOpportunities mobile.1.opportunities desktop.1.opportunities },
   mobile.2 ++ desktop.2)

/-- The `Array.from(new Set(urls)).filter((value) => value.length > 0)`. -/
def uniqueUrls (urls : List String) : List String :=
  (dedupKeepFirst urls).filter (fun v => v.length > 0)

/-- The `fetchPageSpeedForUrls` from `pagespeed.ts`, as a function of the
probe outcomes. -/
def fetchPageSpeedForUrls (probe : ProbeOracle) (urls : List String) :
    PageSpeedBundle :=
  { results := (uniqueUrls urls).map (fun u => (processUrl probe u).1)
    warnings := ((uniqueUrls urls).map (fun u => (processUrl probe u).2)).flatten }

/-! ## Cloudflare GraphQL adapters (`cloudflare.ts`)

Each adapter is a function of the outcome of its GraphQL request(s); the
raw upstream rows carry optional fields exactly as the response typing
does. `toNumber` accepts `number | string | other`; the string branch
(`Number(value)`, non-finite to 0) only concerns transport encoding, so
raw numeric fields are modelled as already-decoded optional integers and
`toNumber` as the `absent ↦ 0` default. -/

/-- The `toNumber` from `cloudflare.ts` on a decoded optional numeric. -/
def toNumber (v : Option Int) : Int := v.getD 0

/-- One element of `zone.httpRequests1dGroups` in the traffic response. -/
structure TrafficGroupRaw where
  date : Option String
  requests : Option Int
  uniques : Option Int
  bytes : Option Int
  deriving DecidableEq, Repr

/-- The `fetchTrafficDaily` from `cloudflare.ts`, as a function of the
response rows (`none` when the response has no zone or no
`httpRequests1dGroups`): map rows to points with `""` for a missing
date, drop empty dates, and sort ascending by date
(`left.date.localeCompare(right.date)`); `trafficPointOfRaw` is its
element mapping (`item.dimensions?.date ?? ""` plus `toNumber` on the
sums). -/
def trafficPointOfRaw (item : TrafficGroupRaw) : DailyTrafficPoint :=
  { date := item.date.getD ""
    requests := toNumber item.requests
    uniques := toNumber item.uniques
    bytes := toNumber item.bytes }

def fetchTrafficDaily (groups : Option (List TrafficGroupRaw)) :
    List DailyTrafficPoint :=
  match groups with
  | none => []
  | some gs =>
    sortAscBy (fun p => p.date.data)
      ((gs.map trafficPointOfRaw).filter (fun p => p.date.length > 0))

/-- The `TopPath` from `types.ts`. -/
structure TopPath where
  path : String
  requests : Int
  deriving DecidableEq, Repr

/-- One element of `zone.firewallEventsAdaptiveGroups` in the primary
(source and action) security query response. -/
structure SecGroupRaw where
  source : Option String
  action : Option String
  count : Option Int
  deriving DecidableEq, Repr

/-- One element of the action-only fallback security query response. -/
structure ActionGroupRaw where
  action : Option String
  count : Option Int
  deriving DecidableEq, Repr

/-- The `fetchSecurityGroups` from `cloudflare.ts`, as a function of the two
query outcomes. The function catches every query failure itself: a
plan-limitation error on the primary query returns `[]` immediately, any
other primary failure falls back to the action-only query, and a fallback
failure returns `[]` — so it never itself throws on a failed query. -/
def fetchSecurityGroups (primary : Except String (List SecGroupRaw))
    (fallback : Except String (List ActionGroupRaw)) :
    List SecurityEventGroup :=
  match primary with
  | .ok groups =>
    groups.map (fun item =>
      { source := item.source.getD "unknown"
        action := item.action.getD "unknown"
        count := toNumber item.count })
  | .error primaryError =>
    if jsIncludes primaryError "does not have access" then []
    else
      match fallback with
      | .ok groups =>
        groups.map (fun item =>
          { source := "unknown"
            action := item.action.getD "unknown"
            count := toNumber item.count })
      | .error _ => []

/-! ## Metric deltas and traffic totals (`reporting.ts`) -/

/-- The `MetricWithDelta` from `types.ts` (`deltaPercent` is
`number | null`). -/
structure MetricWithDelta where
  current : Int
  previous : Int
  deltaPercent : Option ℚ
  deriving DecidableEq, Repr

/-- The `withDelta` from `reporting.ts`. -/
def withDelta (current previous : Int) : MetricWithDelta :=
  { current := current
    previous := previous
    deltaPercent :=
      if previous = 0 then (if current = 0 then some 0 else none)
      else some (((current : ℚ) - previous) / previous * 100) }

/-- The totals record produced by `sumTraffic`. -/
structure TrafficTotals where
  requests : Int
  uniques : Int
  bytes : Int
  deriving DecidableEq, Repr

/-- The `sumTraffic` from `reporting.ts`. -/
def sumTraffic (daily : List DailyTrafficPoint) : TrafficTotals :=
  daily.foldl
    (fun totals point =>
      { requests := totals.requests + point.requests
        uniques := totals.uniques + point.uniques
        bytes := totals.bytes + point.bytes })
    ⟨0, 0, 0⟩

/-! ## WordPress maintenance section (`reporting.ts`)

`buildWordPressSnapshot` draws from `Math.random()` three times through
`randomInt` and once directly; the four draws are passed explicitly. -/

/-- The `WordPressSnapshot` from `types.ts` (fields as constructed in
`buildWordPressSnapshot`). -/
structure WordPressSnapshot where
  pluginsUpdated : Int
  totalPlugins : Int
  coreVersion : String
  phpVersion : String
  securityScanPassed : Bool
  lastBackup : String
  sslValid : Bool
  databaseOptimized : Bool
  uptimePercent : ℚ
  malwareDetected : Bool
  deriving DecidableEq, Repr

/-- The `randomInt(min, max)` from `reporting.ts`, with the `Math.random()`
draw `r ∈ [0, 1)` explicit. -/
def randomInt (r : ℚ) (min max : Int) : Int :=
  Int.floor (r * ((max : ℚ) - min + 1)) + min

/-- The `Number.prototype.toFixed(2)` followed by `parseFloat`: round to two
decimal places, half up. -/
def toFixed2 (q : ℚ) : ℚ := (Int.floor (q * 100 + 1 / 2) : ℚ) / 100

/-- The `buildWordPressSnapshot` from `reporting.ts`. -/
def buildWordPressSnapshot (monthKey : String) (r1 r2 r3 r4 : ℚ) :
    WordPressSnapshot :=
  let totalPlugins := randomInt r1 18 35
  let pluginsUpdated := randomInt r2 3 (min totalPlugins 15)
  let backupDay := randomInt r3 1 28
  { pluginsUpdated := pluginsUpdated
    totalPlugins := totalPlugins
    coreVersion := "6.7.2"
    phpVersion := "8.3.15"
    securityScanPassed := true
    lastBackup := monthKey ++ "-" ++ String.mk (pad2 backupDay.toNat)
      ++ "T03:00:00Z"
    sslValid := true
    databaseOptimized := true
    uptimePercent := toFixed2 (99.5 + r4 * (49 / 100))
    malwareDetected := false }

/-! ## Snapshot assembly (`reporting.ts`: `generateMonthlyReport`) -/

/-- The `SiteConfig` from `config.ts`. -/
structure SiteConfig where
  clientId : String
  zoneId : String
  domain : String
  pagespeedUrls : List String
  deriving DecidableEq, Repr

/-- The `SITE_CONFIG` from `config.ts`. -/
def SITE_CONFIG : SiteConfig :=
  { clientId := "demo-client"
    zoneId := "REPLACE_WITH_ZONE_ID"
    domain := "example.com"
    pagespeedUrls := ["https://example.com/"] }

/-- The `TrafficSnapshot` from `types.ts`. -/
structure TrafficSnapshot where
  requests : MetricWithDelta
  uniqueVisitors : MetricWithDelta
  bandwidth : MetricWithDelta
  weeklyBreakdown : List WeeklyTrafficRow
  topPaths : List TopPath
  deriving DecidableEq, Repr

/-- The `ReportSnapshot` from `types.ts` (current variant, with the `author`
and `wordpress` fields `generateMonthlyReport` populates). -/
structure ReportSnapshot where
  clientId : String
  zoneId : String
  domain : String
  monthKey : String
  monthLabel : String
  timezone : String
  generatedAt : String
  author : String
  traffic : TrafficSnapshot
  security : SecuritySnapshot
  performance : List PageSpeedResult
  wordpress : WordPressSnapshot
  warnings : List String
  deriving DecidableEq, Repr

/-- The `Intl.DateTimeFormat("en-US", { month: "long", year: "numeric" })`
month names. -/
def longMonthName (m : Nat) : String :=
  match m with
  | 1 => "January" | 2 => "February" | 3 => "March" | 4 => "April"
  | 5 => "May" | 6 => "June" | 7 => "July" | 8 => "August"
  | 9 => "September" | 10 => "October" | 11 => "November" | _ => "December"

/-- The `formatMonthLabel` from `period.ts`. `Intl` rendering in a target
timezone is an external, deterministic library call; it is modelled as
this pure function of `(monthKey, timezone)`, rendered in the en-US/UTC
form the pipeline uses by default. -/
def formatMonthLabel (monthKey : String) (timezone : String) : String :=
  match monthKey.data with
  | [y1, y2, y3, y4, _, m1, m2] =>
    longMonthName (10 * digitVal m1 + digitVal m2) ++ " "
      ++ String.mk [y1, y2, y3, y4]
  | _ => monthKey ++ timezone.take 0

/-- The `normalizeWarnings` from `reporting.ts`: truncate each warning to 450
units. -/
def normalizeWarnings (warnings : List String) : List String :=
  warnings.map (fun w => jsSlice w 450)

/-- The `safeFetchTopPaths` from `reporting.ts`: the fetched paths, or `[]`
plus a warning when the fetch rejects. -/
def safeFetchTopPaths (res : Except String (List TopPath)) :
    List TopPath × List String :=
  match res with
  | .ok paths => (paths, [])
  | .error e => ([], ["Top paths unavailable: " ++ e])

/-- The `safeFetchSecurity` from `reporting.ts` (current variant): the catch
deliberately records no warning ("fail silently"), and the embedded
`fetchSecurityGroups` is total, so this is the fetch result itself. -/
def safeFetchSecurity (primary : Except String (List SecGroupRaw))
    (fallback : Except String (List ActionGroupRaw)) :
    List SecurityEventGroup :=
  fetchSecurityGroups primary fallback

/-- The per-run nondeterministic inputs of `generateMonthlyReport`'s
snapshot step: the `new Date().toISOString()` generation timestamp and
the four `Math.random()` draws of `buildWordPressSnapshot`. -/
structure RunOracle where
  now : String
  r1 : ℚ
  r2 : ℚ
  r3 : ℚ
  r4 : ℚ

/-- The snapshot-assembly step of `generateMonthlyReport` from
`reporting.ts`: the `ReportSnapshot` literal, as a function of the
resolved report month `(y, m)` (the first of which is
`period.startDate`), the timezone, the fetched aggregation inputs and
the run's nondeterministic draws. -/
def assembleSnapshot (y m : Nat) (timezone : String)
    (currentDaily previousDaily : List DailyTrafficPoint)
    (topPathsRes : Except String (List TopPath))
    (secPrimary : Except String (List SecGroupRaw))
    (secFallback : Except String (List ActionGroupRaw))
    (probe : ProbeOracle) (o : RunOracle) : ReportSnapshot :=
  let period := buildMonthPeriodOfStart ⟨y, m, 1⟩
  let tp := safeFetchTopPaths topPathsRes
  let securityGroups := safeFetchSecurity secPrimary secFallback
  let psBundle := fetchPageSpeedForUrls probe SITE_CONFIG.pagespeedUrls
  let warnings := tp.2 ++ psBundle.warnings
  let current := sumTraffic currentDaily
  let previous := sumTraffic previousDaily
  { clientId := SITE_CONFIG.clientId
    zoneId := SITE_CONFIG.zoneId
    domain := SITE_CONFIG.domain
    monthKey := period.monthKey
    monthLabel := formatMonthLabel period.monthKey timezone
    timezone := timezone
    generatedAt := o.now
    author := "Bernard McWeeney"
    traffic :=
      { requests := withDelta current.requests previous.requests
        uniqueVisitors := withDelta current.uniques previous.uniques
        bandwidth := withDelta current.bytes previous.bytes
        weeklyBreakdown := buildWeeklyBreakdown currentDaily y m
        topPaths := tp.1 }
    security := buildSecuritySnapshot securityGroups
    performance := psBundle.results
    wordpress := buildWordPressSnapshot period.monthKey o.r1 o.r2 o.r3 o.r4
    warnings := normalizeWarnings warnings }

/-! ## Theorems -/

/-- Claim C3: for all integers `current` and `previous`, `withDelta` returns
the pair unchanged together with `deltaPercent = 0` when both are zero,
`deltaPercent = null` exactly when `previous == 0 && current != 0`, and
otherwise `deltaPercent = (current - previous) / previous * 100`; in
particular `withDelta(0,0).deltaPercent == 0`,
`withDelta(5,0).deltaPercent == null`, and
`withDelta(150,100).deltaPercent == 50`. -/
theorem withDelta_spec :
    (∀ current previous : Int,
      (withDelta current previous).current = current
        ∧ (withDelta current previous).previous = previous)
    ∧ (∀ current previous : Int, previous = 0 → current = 0 →
        (withDelta current previous).deltaPercent = some 0)
    ∧ (∀ current previous : Int,
        ((withDelta current previous).deltaPercent = none ↔
          previous = 0 ∧ current ≠ 0))
    ∧ (∀ current previous : Int, previous ≠ 0 →
        (withDelta current previous).deltaPercent =
          some (((current : ℚ) - previous) / previous * 100))
    ∧ withDelta 0 0 = ⟨0, 0, some 0⟩
    ∧ (withDelta 5 0).deltaPercent = none
    ∧ (withDelta 150 100).deltaPercent = some 50 := by
  refine ⟨fun c p => ⟨rfl, rfl⟩, fun c p hp hc => ?_, fun c p => ?_,
    fun c p hp => ?_, ?_, ?_, ?_⟩
  · simp [withDelta, hp, hc]
  · dsimp [withDelta]
    split_ifs with h1 h2 <;> simp_all
  · simp [withDelta, hp]
  · rfl
  · rfl
  · norm_num [withDelta]

/-- Witness for `withDelta_spec` at concrete inputs. -/
theorem withDelta_spec_witness :
    (withDelta 7 4).deltaPercent = some ((7 - 4 : ℚ) / 4 * 100) :=
  withDelta_spec.2.2.2.1 7 4 (by norm_num)

/-- Claim C10: `normalizeScore` returns either `null` or an integer in
`[0, 100]`: a non-number returns `null`, a number in `[0, 1]` returns
`round(value * 100)` — so a raw score of exactly 1 yields 100, not 1 —
a number in `(1, 100]` returns `round(value)`, and a negative number or
a number above 100 returns `null`. -/
theorem normalizeScore_spec :
    normalizeScore none = none
    ∧ (∀ q : ℚ, 0 ≤ q → q ≤ 1 →
        normalizeScore (some q) = some (jsRound (q * 100)))
    ∧ (∀ q : ℚ, 1 < q → q ≤ 100 →
        normalizeScore (some q) = some (jsRound q))
    ∧ (∀ q : ℚ, q < 0 → normalizeScore (some q) = none)
    ∧ (∀ q : ℚ, 100 < q → normalizeScore (some q) = none)
    ∧ normalizeScore (some 1) = some 100
    ∧ (∀ x : Option ℚ, ∀ n : Int, normalizeScore x = some n →
        0 ≤ n ∧ n ≤ 100) := by
  refine ⟨rfl, fun q h0 h1 => ?_, fun q h1 h100 => ?_, fun q h => ?_,
    fun q h => ?_, ?_, fun x n h => ?_⟩
  · simp [normalizeScore, h0, h1]
  · have : ¬ (0 ≤ q ∧ q ≤ 1) := by push_neg; intro _; linarith
    simp [normalizeScore, this, h1, h100]
  · have h1 : ¬ (0 ≤ q ∧ q ≤ 1) := by push_neg; intro h'; linarith
    have h2 : ¬ (1 < q ∧ q ≤ 100) := by push_neg; intro h'; linarith
    simp [normalizeScore, h1, h2]
  · have h1 : ¬ (0 ≤ q ∧ q ≤ 1) := by push_neg; intro h'; linarith
    have h2 : ¬ (1 < q ∧ q ≤ 100) := by push_neg; intro h'; linarith
    simp [normalizeScore, h1, h2]
  · norm_num [normalizeScore, jsRound]
  · match x with
    | none => simp [normalizeScore] at h
    | some q =>
      dsimp [normalizeScore] at h
      split_ifs at h with h1 h2
      · obtain rfl : jsRound (q * 100) = n := by simpa using h
        constructor
        · exact Int.le_floor.mpr (by push_cast; nlinarith [h1.1])
        · have : (jsRound (q * 100) : ℚ) ≤ q * 100 + 1 / 2 :=
            Int.floor_le _
          have hq : q * 100 + 1 / 2 ≤ (100 : ℚ) + 1 / 2 := by nlinarith [h1.2]
          have := Int.floor_le_floor (le_trans (le_refl _) hq :
            q * 100 + 1 / 2 ≤ (100 : ℚ) + 1 / 2)
          calc jsRound (q * 100) ≤ Int.floor ((100 : ℚ) + 1 / 2) := by
                exact Int.floor_le_floor hq
            _ = 100 := by norm_num
      · obtain rfl : jsRound q = n := by simpa using h
        constructor
        · exact Int.le_floor.mpr (by push_cast; linarith [h2.1])
        · calc jsRound q ≤ Int.floor ((100 : ℚ) + 1 / 2) :=
              Int.floor_le_floor (by linarith [h2.2])
            _ = 100 := by norm_num

/-- Witness for `normalizeScore_spec` at concrete inputs. -/
theorem normalizeScore_spec_witness :
    normalizeScore (some (93 / 100)) = some (jsRound ((93 / 100 : ℚ) * 100)) :=
  normalizeScore_spec.2.1 (93 / 100) (by norm_num) (by norm_num)

theorem chunk7_cons (x : CalDate) (t : List CalDate) :
    chunk7 (x :: t) = ((x :: t).take 7) :: chunk7 ((x :: t).drop 7) := by
  rw [chunk7]

theorem flatten_chunk7 (l : List CalDate) : (chunk7 l).flatten = l := by
  generalize hn : l.length = n
  induction n using Nat.strong_induction_on generalizing l with
  | _ n ih =>
    cases l with
    | nil => simp [chunk7]
    | cons x t =>
      rw [chunk7_cons, List.flatten_cons,
        ih ((x :: t).drop 7).length (by subst hn; simp; omega) _ rfl]
      exact List.take_append_drop 7 (x :: t)

theorem chunk7_window_size (l : List CalDate) :
    ∀ w ∈ chunk7 l, w.length ≤ 7 ∧ w ≠ [] := by
  generalize hn : l.length = n
  induction n using Nat.strong_induction_on generalizing l with
  | _ n ih =>
    cases l with
    | nil => simp [chunk7]
    | cons x t =>
      rw [chunk7_cons]
      intro w hw
      rcases List.mem_cons.mp hw with rfl | hw
      · constructor
        · simp
        · simp
      · exact ih ((x :: t).drop 7).length (by subst hn; simp; omega) _ rfl w hw

theorem chunk7_ne_nil (x : CalDate) (t : List CalDate) :
    chunk7 (x :: t) ≠ [] := by
  rw [chunk7_cons]; exact List.cons_ne_nil _ _

theorem chunk7_full_windows (l : List CalDate) :
    ∀ w ∈ (chunk7 l).dropLast, w.length = 7 := by
  generalize hn : l.length = n
  induction n using Nat.strong_induction_on generalizing l with
  | _ n ih =>
    cases l with
    | nil => simp [chunk7]
    | cons x t =>
      rw [chunk7_cons]
      rcases hd : (x :: t).drop 7 with _ | ⟨y, s⟩
      · simp [hd, chunk7]
      · have hlen : 7 < (x :: t).length := by
          by_contra hc
          have : (x :: t).drop 7 = [] := List.drop_eq_nil_of_le (by omega)
          rw [this] at hd; exact List.noConfusion hd
        rw [← hd]
        have hcne : chunk7 ((x :: t).drop 7) ≠ [] := by rw [hd]; exact chunk7_ne_nil y s
        intro w hw
        rw [List.dropLast_cons_of_ne_nil hcne] at hw
        rcases List.mem_cons.mp hw with rfl | hw
        · have h7 : 7 ≤ t.length + 1 := by
            have h := hlen
            simp only [List.length_cons] at h
            omega
          simp only [List.length_take, List.length_cons]
          omega
        · refine ih ((x :: t).drop 7).length ?_ _ rfl w hw
          rw [← hn]
          simp only [List.length_drop, List.length_cons]
          omega

theorem nodup_monthDays (y m : Nat) : (monthDays y m).Nodup := by
  refine List.Nodup.map ?_ (List.nodup_range _)
  intro a b hab
  simpa [CalDate.mk.injEq] using hab

/-- Claim C4: for every valid month period (first of a calendar month to
the first of the next), `buildWeeklyBreakdown`'s weekly windows
partition the days of the month into consecutive windows with no gaps
and no overlaps — their concatenation, in order, is exactly the month's
day list, and every day is counted in exactly one window — every window
except possibly the last has exactly 7 days, and the final window is
nonempty with at most 7 days. -/
theorem weeklyWindows_partition (y m : Nat) (h1 : 1 ≤ m) (h2 : m ≤ 12) :
    (weeklyWindows y m).flatten = monthDays y m
    ∧ (∀ w ∈ weeklyWindows y m, w.length ≤ 7 ∧ w ≠ [])
    ∧ (∀ w ∈ (weeklyWindows y m).dropLast, w.length = 7)
    ∧ (∀ d ∈ monthDays y m,
        ((weeklyWindows y m).map (fun w => w.count d)).sum = 1) := by
  refine ⟨flatten_chunk7 _, chunk7_window_size _, chunk7_full_windows _,
    fun d hd => ?_⟩
  have hcount : (monthDays y m).count d = 1 :=
    List.count_eq_one_of_mem (nodup_monthDays y m) hd
  calc ((weeklyWindows y m).map (fun w => w.count d)).sum
      = ((weeklyWindows y m).flatten).count d := (List.count_flatten _ _).symm
    _ = 1 := by
      rw [show weeklyWindows y m = chunk7 (monthDays y m) from rfl,
        flatten_chunk7]
      exact hcount

/-- Witness for `weeklyWindows_partition` at the concrete month
2026-01. -/
theorem weeklyWindows_partition_witness :
    (weeklyWindows 2026 1).flatten = monthDays 2026 1
    ∧ (∀ w ∈ weeklyWindows 2026 1, w.length ≤ 7 ∧ w ≠ [])
    ∧ (∀ w ∈ (weeklyWindows 2026 1).dropLast, w.length = 7)
    ∧ (∀ d ∈ monthDays 2026 1,
        ((weeklyWindows 2026 1).map (fun w => w.count d)).sum = 1) :=
  weeklyWindows_partition 2026 1 (by decide) (by decide)

theorem mod10_lt (n : Nat) : n % 10 < 10 := Nat.mod_lt _ (by norm_num)

theorem isJsDigit_digitChar (d : Nat) (h : d < 10) :
    isJsDigit (digitChar d) = true := by
  interval_cases d <;> rfl

theorem isJsDigit_digitChar_mod (n : Nat) :
    isJsDigit (digitChar (n % 10)) = true :=
  isJsDigit_digitChar _ (mod10_lt n)

theorem digitVal_digitChar (d : Nat) (h : d < 10) :
    digitVal (digitChar d) = d := by
  interval_cases d <;> rfl

theorem digitVal_digitChar_mod (n : Nat) :
    digitVal (digitChar (n % 10)) = n % 10 :=
  digitVal_digitChar _ (mod10_lt n)

theorem digitChar_digitVal (c : Char) (h : isJsDigit c = true) :
    digitChar (digitVal c) = c := by
  simp only [isJsDigit, Bool.and_eq_true, decide_eq_true_eq] at h
  have h1 : 48 ≤ c.toNat := h.1
  have h2 : c.toNat ≤ 57 := h.2
  have hc : Char.ofNat c.toNat = c := Char.ofNat_toNat c
  unfold digitVal
  set n := c.toNat with hn
  clear_value n
  rw [← hc]
  interval_cases n <;> decide

theorem digitVal_lt (c : Char) (h : isJsDigit c = true) : digitVal c < 10 := by
  simp only [isJsDigit, Bool.and_eq_true, decide_eq_true_eq] at h
  have h2 : c.toNat ≤ 57 := h.2
  unfold digitVal
  omega

/-- The canonical `YYYY-MM` rendering of a year below 10000 and a
two-digit month: the strings the claims' "valid `YYYY-MM` override"
ranges over. -/
def monthKeyString (y m : Nat) : String :=
  String.mk (pad4 y ++ '-' :: pad2 m)

theorem parseMonthOverride_monthKeyString (y m : Nat) (hy : y ≤ 9999)
    (hm1 : 1 ≤ m) (hm2 : m ≤ 12) :
    parseMonthOverride (monthKeyString y m) =
      .ok (jsDateUTC (y : Int) ((m : Int) - 1)) := by
  have hdata : (monthKeyString y m).data =
      [digitChar (y / 1000 % 10), digitChar (y / 100 % 10),
       digitChar (y / 10 % 10), digitChar (y % 10), '-',
       digitChar (m / 10 % 10), digitChar (m % 10)] := rfl
  unfold parseMonthOverride
  rw [hdata]
  simp only [isJsDigit_digitChar_mod, digitVal_digitChar_mod]
  have hmv : 10 * (m / 10 % 10) + m % 10 = m := by omega
  have hyv : 1000 * (y / 1000 % 10) + 100 * (y / 100 % 10)
      + 10 * (y / 10 % 10) + y % 10 = y := by omega
  rw [hmv, hyv]
  have hrange : ¬ (m < 1 ∨ m > 12) := by omega
  simp [hrange]
  exact ⟨by omega, by omega⟩

theorem exceptMap_ok_iff {ε α β : Type} (f : α → β) (x : Except ε α) :
    (∃ p, x.map f = .ok p) ↔ ∃ a, x = .ok a := by
  cases x <;> simp [Except.map]

theorem parseMonthOverride_ok_iff (s : String) :
    (∃ d, parseMonthOverride s = .ok d) ↔
      ∃ y m, s = monthKeyString y m ∧ y ≤ 9999 ∧ 1 ≤ m ∧ m ≤ 12 := by
  constructor
  · rintro ⟨d, hd⟩
    obtain ⟨l⟩ := s
    unfold parseMonthOverride at hd
    rcases l with _ | ⟨c1, l⟩
    · simp at hd
    rcases l with _ | ⟨c2, l⟩
    · simp at hd
    rcases l with _ | ⟨c3, l⟩
    · simp at hd
    rcases l with _ | ⟨c4, l⟩
    · simp at hd
    rcases l with _ | ⟨c5, l⟩
    · simp at hd
    rcases l with _ | ⟨c6, l⟩
    · simp at hd
    rcases l with _ | ⟨c7, l⟩
    · simp at hd
    rcases l with _ | ⟨c8, rest⟩
    case cons.cons =>
      simp at hd
    case cons.nil =>
      dsimp only at hd
      split_ifs at hd with hcond hrange
      · simp only [Bool.and_eq_true, beq_iff_eq] at hcond
        obtain ⟨⟨⟨⟨⟨⟨hd1, hd2⟩, hd3⟩, hd4⟩, hdash⟩, hd5⟩, hd6⟩ := hcond
        refine ⟨1000 * digitVal c1 + 100 * digitVal c2 + 10 * digitVal c3
          + digitVal c4, 10 * digitVal c6 + digitVal c7, ?_, ?_, ?_, ?_⟩
        · have b1 := digitVal_lt c1 hd1
          have b2 := digitVal_lt c2 hd2
          have b3 := digitVal_lt c3 hd3
          have b4 := digitVal_lt c4 hd4
          have b5 := digitVal_lt c6 hd5
          have b6 := digitVal_lt c7 hd6
          subst hdash
          refine congrArg String.mk ?_
          show [c1, c2, c3, c4, '-', c6, c7] =
            pad4 (1000 * digitVal c1 + 100 * digitVal c2 + 10 * digitVal c3
              + digitVal c4) ++ '-' :: pad2 (10 * digitVal c6 + digitVal c7)
          simp only [pad4, pad2]
          rw [show (1000 * digitVal c1 + 100 * digitVal c2
              + 10 * digitVal c3 + digitVal c4) / 1000 % 10 = digitVal c1 by
                omega,
            show (1000 * digitVal c1 + 100 * digitVal c2
              + 10 * digitVal c3 + digitVal c4) / 100 % 10 = digitVal c2 by
                omega,
            show (1000 * digitVal c1 + 100 * digitVal c2
              + 10 * digitVal c3 + digitVal c4) / 10 % 10 = digitVal c3 by
                omega,
            show (1000 * digitVal c1 + 100 * digitVal c2
              + 10 * digitVal c3 + digitVal c4) % 10 = digitVal c4 by omega,
            show (10 * digitVal c6 + digitVal c7) / 10 % 10 = digitVal c6 by
              omega,
            show (10 * digitVal c6 + digitVal c7) % 10 = digitVal c7 by omega,
            digitChar_digitVal c1 hd1, digitChar_digitVal c2 hd2,
            digitChar_digitVal c3 hd3, digitChar_digitVal c4 hd4,
            digitChar_digitVal c6 hd5, digitChar_digitVal c7 hd6]
          rfl
        · have b1 := digitVal_lt c1 hd1
          have b2 := digitVal_lt c2 hd2
          have b3 := digitVal_lt c3 hd3
          have b4 := digitVal_lt c4 hd4
          omega
        · omega
        · omega
  · rintro ⟨y, m, rfl, hy, hm1, hm2⟩
    exact ⟨_, parseMonthOverride_monthKeyString y m hy hm1 hm2⟩

theorem jsDateUTC_eq (y m : Nat) (hy : 100 ≤ y) (hm1 : 1 ≤ m)
    (hm2 : m ≤ 12) : jsDateUTC (y : Int) ((m : Int) - 1) = ⟨y, m, 1⟩ := by
  unfold jsDateUTC dateOfMonths
  rw [if_neg (by omega)]
  simp only [CalDate.mk.injEq]
  refine ⟨?_, ?_, trivial⟩ <;> omega

/-- The calendar month immediately after `(y, m)`, from the claims'
words. -/
def specNextMonth (y m : Nat) : Nat × Nat :=
  if m = 12 then (y + 1, 1) else (y, m + 1)

/-- The calendar month immediately before `(y, m)`, from the claims'
words ("shifted back by exactly one calendar month"). -/
def specPrevMonth (y m : Nat) : Nat × Nat :=
  if m = 1 then (y - 1, 12) else (y, m - 1)

theorem shiftMonth_plus_one (y m : Nat) (hy : 100 ≤ y) (hm1 : 1 ≤ m)
    (hm2 : m ≤ 12) :
    shiftMonth ⟨y, m, 1⟩ 1 =
      ⟨(specNextMonth y m).1, (specNextMonth y m).2, 1⟩ := by
  unfold shiftMonth jsDateUTC dateOfMonths specNextMonth
  dsimp only
  rw [if_neg (by omega)]
  split_ifs with h <;>
    (simp only [CalDate.mk.injEq]; refine ⟨?_, ?_, trivial⟩ <;> omega)

theorem shiftMonth_minus_one (y m : Nat) (hy : 100 ≤ y) (hm1 : 1 ≤ m)
    (hm2 : m ≤ 12) :
    shiftMonth ⟨y, m, 1⟩ (-1) =
      ⟨(specPrevMonth y m).1, (specPrevMonth y m).2, 1⟩ := by
  unfold shiftMonth jsDateUTC dateOfMonths specPrevMonth
  dsimp only
  rw [if_neg (by omega)]
  split_ifs with h <;>
    (simp only [CalDate.mk.injEq]; refine ⟨?_, ?_, trivial⟩ <;> omega)

theorem monthKey_small (y m dd : Nat) (h : y ≤ 9999) :
    jsSlice (toIsoDate ⟨y, m, dd⟩) 7 = monthKeyString y m := by
  unfold toIsoDate
  rw [if_pos (by exact h : (CalDate.mk y m dd).year ≤ 9999)]
  rfl

theorem buildMonthPeriod_monthKeyString (now : CalDate) (y m : Nat)
    (hy1 : 100 ≤ y) (hy2 : y ≤ 9999) (hm1 : 1 ≤ m) (hm2 : m ≤ 12) :
    buildMonthPeriod now (some (monthKeyString y m)) =
      .ok (buildMonthPeriodOfStart ⟨y, m, 1⟩) := by
  unfold buildMonthPeriod
  dsimp only
  rw [parseMonthOverride_monthKeyString y m hy2 hm1 hm2,
    jsDateUTC_eq y m hy1 hm1 hm2]
  rfl

/-- Claim C7 (amended): `buildMonthPeriod` with an override fails if and
only if the override is not the `YYYY-MM` rendering (four digits, hyphen,
two digits) of a month in 01–12; for every such valid override it
succeeds, and the returned `monthKey` equals the override whenever the
year component is at least 0100. (For year components 0000–0099 it also
succeeds, but `Date.UTC`'s two-digit-year rule shifts the month key into
1900–1999, so `monthKey` differs from the override there.) -/
theorem buildMonthPeriod_override_spec (now : CalDate) :
    (∀ s : String, (∃ p, buildMonthPeriod now (some s) = .ok p) ↔
        ∃ y m, s = monthKeyString y m ∧ y ≤ 9999 ∧ 1 ≤ m ∧ m ≤ 12)
    ∧ (∀ y m : Nat, 100 ≤ y → y ≤ 9999 → 1 ≤ m → m ≤ 12 →
        ∃ p, buildMonthPeriod now (some (monthKeyString y m)) = .ok p
          ∧ p.monthKey = monthKeyString y m) := by
  constructor
  · intro s
    calc (∃ p, buildMonthPeriod now (some s) = .ok p)
        ↔ ∃ d, parseMonthOverride s = .ok d :=
          exceptMap_ok_iff buildMonthPeriodOfStart (parseMonthOverride s)
      _ ↔ _ := parseMonthOverride_ok_iff s
  · intro y m hy1 hy2 hm1 hm2
    refine ⟨buildMonthPeriodOfStart ⟨y, m, 1⟩,
      buildMonthPeriod_monthKeyString now y m hy1 hy2 hm1 hm2, ?_⟩
    exact monthKey_small y m 1 hy2

/-- Witness for `buildMonthPeriod_override_spec` at the concrete
override `2026-01`. -/
theorem buildMonthPeriod_override_spec_witness :
    ∃ p, buildMonthPeriod ⟨2026, 10, 11⟩ (some (monthKeyString 2026 1)) = .ok p
      ∧ p.monthKey = monthKeyString 2026 1 :=
  (buildMonthPeriod_override_spec ⟨2026, 10, 11⟩).2 2026 1 (by norm_num)
    (by norm_num) (by norm_num) (by norm_num)

/-- Claim C7 (counterexample to the claim as stated): the override
`"0001-01"` matches the `YYYY-MM` format with month 01, and
`buildMonthPeriod` succeeds on it — but the returned `monthKey` is
`"1901-01"`, not the override: `Date.UTC(1, 0, 1)` maps year 1 to 1901
under JavaScript's two-digit-year rule. -/
theorem buildMonthPeriod_monthKey_counterexample :
    (buildMonthPeriod ⟨2026, 10, 11⟩ (some "0001-01")).map (·.monthKey) =
      .ok "1901-01"
    ∧ ("1901-01" : String) ≠ "0001-01" :=
  ⟨rfl, by decide⟩

/-- Claim C5 (amended): for every `YYYY-MM` override with year component in
0100–9999 and month 01–12, and not the last representable month 9999-12,
the period's `endDateExclusive` equals the `startDate` of the period
built for the immediately following month's override, and the
previous-month bounds equal the current bounds shifted back by exactly
one calendar month, with `prevEndDateExclusive == startDate`
(contiguous, non-overlapping). -/
theorem buildMonthPeriod_adjacency (now : CalDate) (y m : Nat)
    (hy1 : 100 ≤ y) (hy2 : y ≤ 9999) (hm1 : 1 ≤ m) (hm2 : m ≤ 12)
    (hlast : ¬(y = 9999 ∧ m = 12)) :
    ∃ p q,
      buildMonthPeriod now (some (monthKeyString y m)) = .ok p
      ∧ buildMonthPeriod now
          (some (monthKeyString (specNextMonth y m).1
            (specNextMonth y m).2)) = .ok q
      ∧ p.endDateExclusive = q.startDate
      ∧ p.endDateTimeExclusive = q.startDateTime
      ∧ p.prevStartDate =
          toIsoDate ⟨(specPrevMonth y m).1, (specPrevMonth y m).2, 1⟩
      ∧ p.prevEndDateExclusive = p.startDate := by
  have hbounds : 100 ≤ (specNextMonth y m).1
      ∧ (specNextMonth y m).1 ≤ 9999
      ∧ 1 ≤ (specNextMonth y m).2 ∧ (specNextMonth y m).2 ≤ 12 := by
    unfold specNextMonth
    split_ifs with h <;> refine ⟨by omega, by omega, by omega, by omega⟩
  refine ⟨buildMonthPeriodOfStart ⟨y, m, 1⟩,
    buildMonthPeriodOfStart
      ⟨(specNextMonth y m).1, (specNextMonth y m).2, 1⟩,
    buildMonthPeriod_monthKeyString now y m hy1 hy2 hm1 hm2,
    buildMonthPeriod_monthKeyString now _ _ hbounds.1 hbounds.2.1
      hbounds.2.2.1 hbounds.2.2.2, ?_, ?_, ?_, rfl⟩
  · show toIsoDate (shiftMonth ⟨y, m, 1⟩ 1) = _
    rw [shiftMonth_plus_one y m hy1 hm1 hm2]
    rfl
  · show toIsoDate (shiftMonth ⟨y, m, 1⟩ 1) ++ "T00:00:00Z" = _
    rw [shiftMonth_plus_one y m hy1 hm1 hm2]
    rfl
  · show toIsoDate (shiftMonth ⟨y, m, 1⟩ (-1)) = _
    rw [shiftMonth_minus_one y m hy1 hm1 hm2]

/-- Witness for `buildMonthPeriod_adjacency` at the concrete override
`2026-01`. -/
theorem buildMonthPeriod_adjacency_witness :
    ∃ p q,
      buildMonthPeriod ⟨2026, 10, 11⟩ (some (monthKeyString 2026 1)) = .ok p
      ∧ buildMonthPeriod ⟨2026, 10, 11⟩
          (some (monthKeyString (specNextMonth 2026 1).1
            (specNextMonth 2026 1).2)) = .ok q
      ∧ p.endDateExclusive = q.startDate
      ∧ p.endDateTimeExclusive = q.startDateTime
      ∧ p.prevStartDate =
          toIsoDate ⟨(specPrevMonth 2026 1).1, (specPrevMonth 2026 1).2, 1⟩
      ∧ p.prevEndDateExclusive = p.startDate :=
  buildMonthPeriod_adjacency ⟨2026, 10, 11⟩ 2026 1 (by norm_num)
    (by norm_num) (by norm_num) (by norm_num) (by simp)

/-- Claim C5 (counterexample to the claim as stated): `"0099-12"` is a
valid `YYYY-MM` override, but its period's `endDateExclusive` is
`"2000-01-01"` (the two-digit-year rule maps 99 to 1999) while the
period for the following month's override `"0100-01"` starts at
`"0100-01-01"`. -/
theorem buildMonthPeriod_adjacency_counterexample :
    (buildMonthPeriod ⟨2026, 10, 11⟩ (some "0099-12")).map
        (·.endDateExclusive) = .ok "2000-01-01"
    ∧ (buildMonthPeriod ⟨2026, 10, 11⟩ (some "0100-01")).map (·.startDate) =
        .ok "0100-01-01"
    ∧ ("2000-01-01" : String) ≠ "0100-01-01" :=
  ⟨rfl, rfl, by decide⟩

theorem kept_dates (gs : List TrafficGroupRaw) :
    ((gs.map trafficPointOfRaw).filter
        (fun p => p.date.length > 0)).map (fun p => p.date)
      = (gs.filterMap (fun g => g.date)).filter (fun s => s.length > 0) := by
  induction gs with
  | nil => rfl
  | cons g gs ih =>
    cases hd : g.date with
    | none =>
      simpa [trafficPointOfRaw, List.filterMap_cons, hd] using ih
    | some s =>
      by_cases hs : s.length > 0 <;>
        simp [trafficPointOfRaw, List.filterMap_cons, hd, hs, ih]

/-- Claim C9 (amended): `fetchTrafficDaily` returns a sequence sorted by
date ascending, every returned date comes from the upstream response
(dates absent upstream are omitted, never zero-filled), and there are no
duplicate dates whenever the upstream rows carry distinct dates; rows
with duplicate upstream dates, however, are passed through rather than
deduplicated. -/
theorem fetchTrafficDaily_spec (groups : Option (List TrafficGroupRaw)) :
    List.Pairwise (fun p q => p.date ≤ q.date) (fetchTrafficDaily groups)
    ∧ (∀ p ∈ fetchTrafficDaily groups, p.date ≠ ""
        ∧ ∃ gs, groups = some gs ∧ ∃ g ∈ gs, g.date = some p.date)
    ∧ (∀ gs, groups = some gs → (gs.filterMap (fun g => g.date)).Nodup →
        ((fetchTrafficDaily groups).map (fun p => p.date)).Nodup) := by
  refine ⟨?_, ?_, ?_⟩
  · cases groups with
    | none => simp [fetchTrafficDaily]
    | some gs =>
      refine List.Pairwise.imp (fun h => String.le_iff_toList_le.mpr h)
        (pairwise_le_sortAscBy (fun p : DailyTrafficPoint => p.date.data) _)
  · intro p hp
    cases groups with
    | none => simp [fetchTrafficDaily] at hp
    | some gs =>
      rw [show fetchTrafficDaily (some gs) =
        sortAscBy (fun p => p.date.data)
          ((gs.map trafficPointOfRaw).filter (fun p => p.date.length > 0))
        from rfl] at hp
      have hp2 : p ∈ (gs.map trafficPointOfRaw).filter
          (fun p => p.date.length > 0) :=
        ((perm_sortAscBy (fun p => p.date.data) _).mem_iff).mp hp
      rw [List.mem_filter] at hp2
      obtain ⟨hpm, hplen⟩ := hp2
      obtain ⟨g, hg, rfl⟩ := List.mem_map.mp hpm
      cases hgd : g.date with
      | none =>
        rw [show (trafficPointOfRaw g).date = "" by
          simp [trafficPointOfRaw, hgd]] at hplen
        simp at hplen
      | some s =>
        have hdate : (trafficPointOfRaw g).date = s := by
          simp [trafficPointOfRaw, hgd]
        have hlen : (trafficPointOfRaw g).date.length > 0 := by
          simpa using hplen
        refine ⟨?_, gs, rfl, g, hg, by rw [hdate]; exact hgd⟩
        intro he
        rw [he] at hlen
        simp at hlen
  · intro gs hgs hnd
    subst hgs
    have hperm :
        List.Perm
          ((fetchTrafficDaily (some gs)).map
            (fun p : DailyTrafficPoint => p.date))
          (((gs.map trafficPointOfRaw).filter
            (fun p => p.date.length > 0)).map
              (fun p : DailyTrafficPoint => p.date)) :=
      (perm_sortAscBy (fun p : DailyTrafficPoint => p.date.data) _).map _
    rw [hperm.nodup_iff, kept_dates]
    exact hnd.filter _

/-- Witness for `fetchTrafficDaily_spec` at a concrete response. -/
theorem fetchTrafficDaily_spec_witness :
    ((fetchTrafficDaily (some
      [⟨some "2026-01-02", some 5, some 2, some 9⟩,
       ⟨some "2026-01-01", some 3, some 1, some 4⟩,
       ⟨none, some 7, some 7, some 7⟩])).map (fun p => p.date)).Nodup :=
  (fetchTrafficDaily_spec _).2.2 _ rfl (by decide)

/-- Claim C9 (counterexample to the claim as stated): the adapter does not
deduplicate — an upstream response repeating a date yields two points
with that date. -/
theorem fetchTrafficDaily_counterexample :
    ¬ ((fetchTrafficDaily (some
      [⟨some "2026-01-01", some 1, some 1, some 1⟩,
       ⟨some "2026-01-01", some 2, some 2, some 2⟩])).map
        (fun p => p.date)).Nodup := by
  decide

section DedupLemmas

variable {α : Type} [DecidableEq α]

theorem foldlSetAdd_nodup (xs : List α) (acc : List α) (h : acc.Nodup) :
    (xs.foldl (fun acc x => if x ∈ acc then acc else acc ++ [x]) acc).Nodup := by
  induction xs generalizing acc with
  | nil => exact h
  | cons x xs ih =>
    dsimp only [List.foldl]
    by_cases hx : x ∈ acc
    · rw [if_pos hx]; exact ih _ h
    · rw [if_neg hx]
      exact ih _ (by simp [List.nodup_append, h, hx])

theorem nodup_dedupKeepFirst (xs : List α) : (dedupKeepFirst xs).Nodup :=
  foldlSetAdd_nodup xs [] List.nodup_nil

theorem mem_foldlSetAdd (xs : List α) (acc : List α) (a : α) :
    a ∈ xs.foldl (fun acc x => if x ∈ acc then acc else acc ++ [x]) acc ↔
      a ∈ acc ∨ a ∈ xs := by
  induction xs generalizing acc with
  | nil => simp
  | cons x xs ih =>
    dsimp only [List.foldl]
    by_cases hx : x ∈ acc
    · rw [if_pos hx, ih]
      constructor
      · rintro (h | h)
        · exact Or.inl h
        · exact Or.inr (List.mem_cons_of_mem _ h)
      · rintro (h | h)
        · exact Or.inl h
        · rcases List.mem_cons.mp h with rfl | h2
          · exact Or.inl hx
          · exact Or.inr h2
    · rw [if_neg hx, ih]
      simp [List.mem_append, or_assoc]

theorem mem_dedupKeepFirst (xs : List α) (a : α) :
    a ∈ dedupKeepFirst xs ↔ a ∈ xs := by
  simpa using mem_foldlSetAdd xs [] a

theorem nodup_filter_eq_singleton (l : List α) (hn : l.Nodup) (u : α)
    (hu : u ∈ l) : l.filter (fun v => v = u) = [u] := by
  induction l with
  | nil => cases hu
  | cons x t ih =>
    rw [List.nodup_cons] at hn
    rcases List.mem_cons.mp hu with he | hu2
    · rw [he]
      rw [List.filter_cons_of_pos (by simp)]
      rw [show t.filter (fun v => decide (v = x)) = [] from
        List.filter_eq_nil_iff.mpr fun a ha => by
          simp only [decide_eq_true_eq]
          exact fun h => hn.1 (h ▸ ha)]
    · have hne : x ≠ u := fun he => hn.1 (he ▸ hu2)
      rw [List.filter_cons_of_neg (by simp [hne])]
      exact ih hn.2 hu2

omit [DecidableEq α] in
theorem flatten_all_nil {β : Type} (l : List (List β))
    (h : ∀ x ∈ l, x = []) : l.flatten = [] := by
  induction l with
  | nil => rfl
  | cons x t ih =>
    rw [List.flatten_cons, h x (List.mem_cons_self _ _), List.nil_append]
    exact ih (fun x hx => h x (List.mem_cons_of_mem _ hx))

omit [DecidableEq α] in
theorem flatten_singleton {β : Type} (l : List α) (hn : l.Nodup) (u : α)
    (hu : u ∈ l) (f : α → List β)
    (hrest : ∀ v ∈ l, v ≠ u → f v = []) :
    (l.map f).flatten = f u := by
  induction l with
  | nil => cases hu
  | cons x t ih =>
    rw [List.nodup_cons] at hn
    rcases List.mem_cons.mp hu with rfl | hu2
    · rw [List.map_cons, List.flatten_cons,
        flatten_all_nil _ (fun w hw => ?_), List.append_nil]
      obtain ⟨v, hv, rfl⟩ := List.mem_map.mp hw
      exact hrest v (List.mem_cons_of_mem _ hv) (fun he => hn.1 (he ▸ hv))
    · have hne : x ≠ u := fun he => hn.1 (he ▸ hu2)
      rw [List.map_cons, List.flatten_cons,
        hrest x (List.mem_cons_self _ _) hne, List.nil_append]
      exact ih hn.2 hu2
        (fun v hv hvu => hrest v (List.mem_cons_of_mem _ hv) hvu)

end DedupLemmas

theorem nodup_uniqueUrls (urls : List String) : (uniqueUrls urls).Nodup :=
  (nodup_dedupKeepFirst urls).filter _

/-- Claim C6: if the desktop probe for a URL rejects while the mobile probe
succeeds, `fetchPageSpeedForUrls` still returns exactly one result for
that URL, carrying the mobile scores from the successful probe and all
four desktop scores null; that URL's processing appends exactly the one
warning naming the URL and "desktop" (so when every other probe
succeeds, the run's warning list is exactly that warning); and the
failure does not affect the results of the other URLs (they agree with
any run whose probes differ only at the failed URL). -/
theorem fetchPageSpeedForUrls_desktop_failure (probe : ProbeOracle)
    (urls : List String) (u e : String) (r : SingleRunResult)
    (hu : u ∈ uniqueUrls urls)
    (hm : probe u .mobile = .ok r)
    (hd : probe u .desktop = .error e) :
    ((fetchPageSpeedForUrls probe urls).results.filter
        (fun res => res.url = u) =
      [{ url := u
         mobile := r.scores
         desktop := emptyScores
         mobileVitals := r.vitals
         desktopVitals := []
         opportunities := mergeOpportunities r.opportunities [] }])
    ∧ (processUrl probe u).2 = [psWarn .desktop u e]
    ∧ ((∀ v ∈ uniqueUrls urls, v ≠ u → (processUrl probe v).2 = []) →
        (fetchPageSpeedForUrls probe urls).warnings = [psWarn .desktop u e])
    ∧ (∀ probe2 : ProbeOracle, (∀ v, v ≠ u → probe2 v = probe v) →
        (fetchPageSpeedForUrls probe2 urls).results.filter
            (fun res => res.url ≠ u) =
          (fetchPageSpeedForUrls probe urls).results.filter
            (fun res => res.url ≠ u)) := by
  have hone : processUrl probe u =
      ({ url := u
         mobile := r.scores
         desktop := emptyScores
         mobileVitals := r.vitals
         desktopVitals := []
         opportunities := mergeOpportunities r.opportunities [] },
       [psWarn .desktop u e]) := by
    unfold processUrl runOutcome
    rw [hm, hd]
    rfl
  refine ⟨?_, ?_, ?_, ?_⟩
  · show ((uniqueUrls urls).map
        (fun v => (processUrl probe v).1)).filter (fun res => res.url = u) = _
    rw [List.filter_map]
    have hcomp : ((uniqueUrls urls).filter
        ((fun res : PageSpeedResult => decide (res.url = u)) ∘
          (fun v => (processUrl probe v).1))) =
        (uniqueUrls urls).filter (fun v => v = u) := by
      apply List.filter_congr
      intro v hv
      show decide ((processUrl probe v).1.url = u) = decide (v = u)
      rw [show (processUrl probe v).1.url = v from rfl]
    rw [hcomp, nodup_filter_eq_singleton _ (nodup_uniqueUrls urls) u hu,
      List.map_singleton, hone]
  · rw [hone]
  · intro hrest
    show ((uniqueUrls urls).map (fun v => (processUrl probe v).2)).flatten = _
    rw [flatten_singleton _ (nodup_uniqueUrls urls) u hu _ hrest, hone]
  · intro probe2 hagree
    show ((uniqueUrls urls).map
        (fun v => (processUrl probe2 v).1)).filter (fun res => res.url ≠ u) =
      ((uniqueUrls urls).map
        (fun v => (processUrl probe v).1)).filter (fun res => res.url ≠ u)
    rw [List.filter_map, List.filter_map]
    have hcomp : ∀ probe3 : ProbeOracle, ((uniqueUrls urls).filter
        ((fun res : PageSpeedResult => decide (res.url ≠ u)) ∘
          (fun v => (processUrl probe3 v).1))) =
        (uniqueUrls urls).filter (fun v => v ≠ u) := by
      intro probe3
      apply List.filter_congr
      intro v hv
      show decide ((processUrl probe3 v).1.url ≠ u) = decide (v ≠ u)
      rw [show (processUrl probe3 v).1.url = v from rfl]
    rw [hcomp probe2, hcomp probe]
    apply List.map_congr_left
    intro v hv
    rw [List.mem_filter] at hv
    have hvne : v ≠ u := by simpa using hv.2
    rw [show processUrl probe2 v = processUrl probe v from by
      unfold processUrl runOutcome
      rw [hagree v hvne]]

/-- A concrete probe outcome set: the desktop probe of one URL rejects,
everything else succeeds. -/
def demoProbe : ProbeOracle := fun url strat =>
  if url = "https://a.example/" ∧ strat = .desktop then .error "HTTP 500"
  else .ok ⟨⟨some 90, some 80, some 70, some 60⟩, [], []⟩

/-- Witness for `fetchPageSpeedForUrls_desktop_failure` at a concrete
probe. -/
theorem fetchPageSpeedForUrls_desktop_failure_witness :
    (processUrl demoProbe "https://a.example/").2 =
      [psWarn .desktop "https://a.example/" "HTTP 500"] :=
  (fetchPageSpeedForUrls_desktop_failure demoProbe
    ["https://a.example/", "https://b.example/"] "https://a.example/"
    "HTTP 500" ⟨⟨some 90, some 80, some 70, some 60⟩, [], []⟩
    (by decide) rfl rfl).2.1

/-- Total event count of a category label over a list of groups. -/
def labelTotal (groups : List SecurityEventGroup) (label : String) : Int :=
  ((groups.filter (fun g => catLabel g = label)).map (fun g => g.count)).sum

/-- Total count held for a label by an association list. -/
def assocSum (al : List (String × Int)) (label : String) : Int :=
  ((al.filter (fun e => e.1 = label)).map (fun e => e.2)).sum

theorem assocSum_cons (e : String × Int) (t : List (String × Int))
    (lab : String) :
    assocSum (e :: t) lab =
      (if e.1 = lab then e.2 else 0) + assocSum t lab := by
  by_cases h : e.1 = lab <;> simp [assocSum, List.filter_cons, h]

theorem assocSum_upsertAssoc (label : String) (c : Int)
    (al : List (String × Int)) (lab : String) :
    assocSum (upsertAssoc label c al) lab =
      assocSum al lab + (if label = lab then c else 0) := by
  induction al with
  | nil =>
    by_cases h : label = lab <;>
      simp [assocSum, upsertAssoc, List.filter_cons, h]
  | cons e t ih =>
    obtain ⟨l, n⟩ := e
    dsimp only [upsertAssoc]
    by_cases hl : l = label
    · rw [if_pos hl, assocSum_cons, assocSum_cons]
      by_cases hlab : l = lab
      · have hll : label = lab := hl ▸ hlab
        rw [if_pos hlab, if_pos hlab, if_pos hll]
        ring
      · have hll : ¬ (label = lab) := fun h => hlab (hl.trans h)
        rw [if_neg hlab, if_neg hlab, if_neg hll]
        ring
    · rw [if_neg hl, assocSum_cons, assocSum_cons, ih]
      ring

theorem labelTotal_cons (g : SecurityEventGroup)
    (gs : List SecurityEventGroup) (lab : String) :
    labelTotal (g :: gs) lab =
      (if catLabel g = lab then g.count else 0) + labelTotal gs lab := by
  by_cases h : catLabel g = lab <;> simp [labelTotal, List.filter_cons, h]

theorem assocSum_foldl (gs : List SecurityEventGroup)
    (acc : List (String × Int)) (lab : String) :
    assocSum (gs.foldl (fun acc g => upsertAssoc (catLabel g) g.count acc)
        acc) lab
      = assocSum acc lab + labelTotal gs lab := by
  induction gs generalizing acc with
  | nil => simp [labelTotal, assocSum]
  | cons g gs ih =>
    dsimp only [List.foldl]
    rw [ih, assocSum_upsertAssoc, labelTotal_cons]
    ring

theorem assocSum_eq_zero (al : List (String × Int)) (lab : String)
    (h : lab ∉ al.map Prod.fst) : assocSum al lab = 0 := by
  induction al with
  | nil => rfl
  | cons e t ih =>
    rw [List.map_cons] at h
    have h1 : e.1 ≠ lab := fun he => h (he ▸ List.mem_cons_self _ _)
    have h2 : lab ∉ t.map Prod.fst := fun ht => h (List.mem_cons_of_mem _ ht)
    rw [assocSum_cons, if_neg h1, ih h2]
    ring

theorem assocSum_of_mem (al : List (String × Int))
    (hn : (al.map Prod.fst).Nodup) (lab : String) (n : Int)
    (hm : (lab, n) ∈ al) : assocSum al lab = n := by
  induction al with
  | nil => cases hm
  | cons e t ih =>
    rw [List.map_cons, List.nodup_cons] at hn
    rcases List.mem_cons.mp hm with he | hm2
    · rw [← he, assocSum_cons, if_pos rfl]
      have h0 : assocSum t lab = 0 := by
        refine assocSum_eq_zero t lab (fun ht => ?_)
        rw [← he] at hn
        exact hn.1 ht
      rw [h0]
      ring
    · have hne : e.1 ≠ lab := fun h =>
        hn.1 (h ▸ List.mem_map_of_mem Prod.fst hm2)
      rw [assocSum_cons, if_neg hne, ih hn.2 hm2]
      ring

theorem upsertAssoc_keys (label : String) (c : Int)
    (al : List (String × Int)) :
    (upsertAssoc label c al).map Prod.fst =
      if label ∈ al.map Prod.fst then al.map Prod.fst
      else al.map Prod.fst ++ [label] := by
  induction al with
  | nil => simp [upsertAssoc]
  | cons e t ih =>
    obtain ⟨l, n⟩ := e
    dsimp only [upsertAssoc]
    by_cases hl : l = label
    · rw [if_pos hl]
      have : label ∈ ((l, n) :: t).map Prod.fst := by
        simp [hl.symm]
      rw [if_pos this]
      rfl
    · rw [if_neg hl]
      by_cases hmem : label ∈ t.map Prod.fst
      · have : label ∈ ((l, n) :: t).map Prod.fst := by
          simp [List.mem_cons, hmem]
        rw [if_pos this]
        simp only [List.map_cons, ih, if_pos hmem]
      · have : label ∉ ((l, n) :: t).map Prod.fst := by
          simp only [List.map_cons, List.mem_cons]
          rintro (h | h)
          · exact hl (by simpa using h.symm)
          · exact hmem h
        rw [if_neg this]
        simp only [List.map_cons, ih, if_neg hmem, List.cons_append]

theorem foldl_rollup_keys (gs : List SecurityEventGroup)
    (acc : List (String × Int)) :
    ((gs.foldl (fun acc g => upsertAssoc (catLabel g) g.count acc)
        acc).map Prod.fst)
      = (gs.map catLabel).foldl
          (fun ks x => if x ∈ ks then ks else ks ++ [x])
          (acc.map Prod.fst) := by
  induction gs generalizing acc with
  | nil => rfl
  | cons g gs ih =>
    dsimp only [List.foldl, List.map_cons]
    rw [ih, upsertAssoc_keys]

theorem rollup_keys (gs : List SecurityEventGroup) :
    (rollupCategories gs).map Prod.fst = dedupKeepFirst (gs.map catLabel) := by
  unfold rollupCategories dedupKeepFirst
  exact foldl_rollup_keys gs []

theorem pairwise_indexOf_dedupKeepFirst (xs : List String) :
    List.Pairwise (fun a b => List.indexOf a xs < List.indexOf b xs)
      (dedupKeepFirst xs) := by
  induction xs using List.reverseRecOn with
  | nil => simp [dedupKeepFirst]
  | append_singleton xs y ih =>
    have hstep : dedupKeepFirst (xs ++ [y]) =
        (if y ∈ dedupKeepFirst xs then dedupKeepFirst xs
         else dedupKeepFirst xs ++ [y]) := by
      unfold dedupKeepFirst
      rw [List.foldl_append]
      rfl
    rw [hstep]
    by_cases hy : y ∈ dedupKeepFirst xs
    · rw [if_pos hy]
      refine ih.imp_of_mem (fun ha hb h => ?_)
      rw [List.indexOf_append_of_mem ((mem_dedupKeepFirst _ _).mp ha),
        List.indexOf_append_of_mem ((mem_dedupKeepFirst _ _).mp hb)]
      exact h
    · rw [if_neg hy]
      rw [List.pairwise_append]
      refine ⟨ih.imp_of_mem (fun ha hb h => ?_),
        List.pairwise_singleton _ _, ?_⟩
      · rw [List.indexOf_append_of_mem ((mem_dedupKeepFirst _ _).mp ha),
          List.indexOf_append_of_mem ((mem_dedupKeepFirst _ _).mp hb)]
        exact h
      · intro a ha b hb
        rw [List.mem_singleton] at hb
        subst hb
        have hax : a ∈ xs := (mem_dedupKeepFirst _ _).mp ha
        have hyx : b ∉ xs := fun h => hy ((mem_dedupKeepFirst _ _).mpr h)
        rw [List.indexOf_append_of_mem hax,
          List.indexOf_append_of_not_mem hyx]
        have := List.indexOf_lt_length.mpr hax
        omega

theorem pairwise_firstSeen_rollup (gs : List SecurityEventGroup) :
    List.Pairwise (fun e1 e2 : String × Int =>
        List.indexOf e1.1 (gs.map catLabel)
          < List.indexOf e2.1 (gs.map catLabel))
      (rollupCategories gs) := by
  have h := pairwise_indexOf_dedupKeepFirst (gs.map catLabel)
  rw [← rollup_keys, List.pairwise_map] at h
  exact h

/-- Claim C8: for every list of security event groups,
`buildSecuritySnapshot` returns at most 3 `topCategories` rows; every row
is labelled by a `source/action` category occurring in the input and
carries the total count summed over all groups with that label; and the
rows are ordered by count descending, with ties between equal counts
broken by the order in which the label first appears in the input. -/
theorem buildSecuritySnapshot_topCategories
    (groups : List SecurityEventGroup) :
    (buildSecuritySnapshot groups).topCategories.length ≤ 3
    ∧ (∀ r ∈ (buildSecuritySnapshot groups).topCategories,
        r.label ∈ groups.map catLabel ∧ r.count = labelTotal groups r.label)
    ∧ List.Pairwise (fun a b : SecurityCategoryRow =>
        b.count < a.count ∨ (a.count = b.count ∧
          List.indexOf a.label (groups.map catLabel)
            < List.indexOf b.label (groups.map catLabel)))
      (buildSecuritySnapshot groups).topCategories := by
  have hkeys_nodup : ((rollupCategories groups).map Prod.fst).Nodup := by
    rw [rollup_keys]
    exact nodup_dedupKeepFirst _
  have htop : (buildSecuritySnapshot groups).topCategories =
      ((sortDescBy (fun e => e.2) (rollupCategories groups)).take 3).map
        (fun e => ⟨e.1, e.2⟩) := rfl
  refine ⟨?_, ?_, ?_⟩
  · rw [htop, List.length_map, List.length_take]
    exact min_le_left _ _
  · intro r hr
    rw [htop] at hr
    obtain ⟨e, he, rfl⟩ := List.mem_map.mp hr
    have he2 : e ∈ sortDescBy (fun e => e.2) (rollupCategories groups) :=
      List.mem_of_mem_take he
    have he3 : e ∈ rollupCategories groups :=
      ((perm_sortDescBy (fun e : String × Int => e.2) _).mem_iff).mp he2
    obtain ⟨l, n⟩ := e
    constructor
    · have hmem : l ∈ (rollupCategories groups).map Prod.fst :=
        List.mem_map_of_mem Prod.fst he3
      rw [rollup_keys] at hmem
      exact (mem_dedupKeepFirst _ _).mp hmem
    · have h1 : assocSum (rollupCategories groups) l = n :=
        assocSum_of_mem _ hkeys_nodup l n he3
      have h2 : assocSum (rollupCategories groups) l =
          labelTotal groups l := by
        unfold rollupCategories
        rw [assocSum_foldl]
        simp [assocSum]
      show n = labelTotal groups l
      rw [← h1, h2]
  · rw [htop]
    have hsorted := pairwise_sortDescBy (fun e : String × Int => e.2)
      (fun e1 e2 => List.indexOf e1.1 (groups.map catLabel)
        < List.indexOf e2.1 (groups.map catLabel))
      _ (pairwise_firstSeen_rollup groups)
    have htake := hsorted.sublist (List.take_sublist 3 _)
    refine List.pairwise_map.mpr (htake.imp ?_)
    intro e1 e2 h
    rcases h with h | ⟨heq, h⟩
    · exact Or.inl h
    · exact Or.inr ⟨heq, h⟩

/-- Witness for `buildSecuritySnapshot_topCategories` at a concrete
group list. -/
theorem buildSecuritySnapshot_topCategories_witness :
    (⟨"bot/log", 7⟩ : SecurityCategoryRow).label ∈
      ([⟨"waf", "block", 5⟩, ⟨"bot", "log", 7⟩] :
        List SecurityEventGroup).map catLabel
    ∧ (⟨"bot/log", 7⟩ : SecurityCategoryRow).count =
        labelTotal [⟨"waf", "block", 5⟩, ⟨"bot", "log", 7⟩] "bot/log" :=
  (buildSecuritySnapshot_topCategories
    [⟨"waf", "block", 5⟩, ⟨"bot", "log", 7⟩]).2.1
    ⟨"bot/log", 7⟩ (by decide)

/-- Claim C1 (amended): the snapshot-assembly step is deterministic in
everything except the generation timestamp and the `wordpress`
maintenance section — for a fixed clientId (site config), period, and
aggregation result, any two runs agree on every other field. (The
`wordpress` section is built from inline `Math.random()` draws, so the
claim's "identical except `generatedAt`" fails; see the
counterexample.) -/
theorem assembleSnapshot_deterministic (y m : Nat) (tz : String)
    (currentDaily previousDaily : List DailyTrafficPoint)
    (topPathsRes : Except String (List TopPath))
    (secPrimary : Except String (List SecGroupRaw))
    (secFallback : Except String (List ActionGroupRaw))
    (probe : ProbeOracle) (o1 o2 : RunOracle) :
    let s1 := assembleSnapshot y m tz currentDaily previousDaily
      topPathsRes secPrimary secFallback probe o1
    let s2 := assembleSnapshot y m tz currentDaily previousDaily
      topPathsRes secPrimary secFallback probe o2
    s1.clientId = s2.clientId ∧ s1.zoneId = s2.zoneId
    ∧ s1.domain = s2.domain ∧ s1.monthKey = s2.monthKey
    ∧ s1.monthLabel = s2.monthLabel ∧ s1.timezone = s2.timezone
    ∧ s1.author = s2.author ∧ s1.traffic = s2.traffic
    ∧ s1.security = s2.security ∧ s1.performance = s2.performance
    ∧ s1.warnings = s2.warnings :=
  ⟨rfl, rfl, rfl, rfl, rfl, rfl, rfl, rfl, rfl, rfl, rfl⟩

/-- Claim C1 (counterexample to the claim as stated): two snapshot
assemblies with identical clientId, period, aggregation inputs and even
an identical generation timestamp — differing only in the run's
`Math.random()` draws — produce different `ReportSnapshot` values: the
`wordpress.totalPlugins` placeholder differs, so the snapshots are not
identical except for `generatedAt`. -/
theorem assembleSnapshot_determinism_counterexample :
    (assembleSnapshot 2026 1 "UTC" [] [] (.ok []) (.ok []) (.ok [])
        (fun _ _ => .ok emptyRunResult)
        ⟨"2026-02-01T06:00:00.000Z", 0, 0, 0, 0⟩).generatedAt =
      (assembleSnapshot 2026 1 "UTC" [] [] (.ok []) (.ok []) (.ok [])
        (fun _ _ => .ok emptyRunResult)
        ⟨"2026-02-01T06:00:00.000Z", 17 / 18, 0, 0, 0⟩).generatedAt
    ∧ (assembleSnapshot 2026 1 "UTC" [] [] (.ok []) (.ok []) (.ok [])
        (fun _ _ => .ok emptyRunResult)
        ⟨"2026-02-01T06:00:00.000Z", 0, 0, 0, 0⟩).wordpress.totalPlugins ≠
      (assembleSnapshot 2026 1 "UTC" [] [] (.ok []) (.ok []) (.ok [])
        (fun _ _ => .ok emptyRunResult)
        ⟨"2026-02-01T06:00:00.000Z", 17 / 18, 0, 0, 0⟩).wordpress.totalPlugins := by
  refine ⟨rfl, ?_⟩
  have h1 : (assembleSnapshot 2026 1 "UTC" [] [] (.ok []) (.ok []) (.ok [])
      (fun _ _ => .ok emptyRunResult)
      ⟨"2026-02-01T06:00:00.000Z", 0, 0, 0, 0⟩).wordpress.totalPlugins =
        randomInt 0 18 35 := rfl
  have h2 : (assembleSnapshot 2026 1 "UTC" [] [] (.ok []) (.ok []) (.ok [])
      (fun _ _ => .ok emptyRunResult)
      ⟨"2026-02-01T06:00:00.000Z", 17 / 18, 0, 0, 0⟩).wordpress.totalPlugins =
        randomInt (17 / 18) 18 35 := rfl
  rw [h1, h2]
  unfold randomInt
  have e1 : ((0 : ℚ) * (((35 : Int) : ℚ) - ((18 : Int) : ℚ) + 1)) = 0 := by
    norm_num
  have e2 : (((17 : ℚ) / 18) * (((35 : Int) : ℚ) - ((18 : Int) : ℚ) + 1)) =
      (17 : ℚ) := by norm_num
  rw [e1, e2]
  norm_num

/-- Claim C2 (amended): if the security source call fails entirely (every
security query throws), the snapshot's security section is zeroed —
`totalFirewallActions = 0`, `botRateLimitActions = 0`,
`topCategories = []` — and the traffic, performance and warnings fields
are exactly those of a run with any other security outcome: the security
failure contributes NO warning (contrary to the claim, the current
`safeFetchSecurity` fails silently, and `fetchSecurityGroups` itself
swallows both query failures). -/
theorem assembleSnapshot_security_failure (y m : Nat) (tz : String)
    (currentDaily previousDaily : List DailyTrafficPoint)
    (topPathsRes : Except String (List TopPath)) (e1 e2 : String)
    (secPrimary2 : Except String (List SecGroupRaw))
    (secFallback2 : Except String (List ActionGroupRaw))
    (probe : ProbeOracle) (o : RunOracle) :
    let s := assembleSnapshot y m tz currentDaily previousDaily
      topPathsRes (.error e1) (.error e2) probe o
    let s2 := assembleSnapshot y m tz currentDaily previousDaily
      topPathsRes secPrimary2 secFallback2 probe o
    s.security = ⟨0, 0, []⟩
    ∧ s.traffic = s2.traffic
    ∧ s.performance = s2.performance
    ∧ s.warnings = s2.warnings
    ∧ s.generatedAt = s2.generatedAt := by
  refine ⟨?_, rfl, rfl, rfl, rfl⟩
  show buildSecuritySnapshot (safeFetchSecurity (.error e1) (.error e2)) = _
  unfold safeFetchSecurity fetchSecurityGroups
  dsimp only
  by_cases h : jsIncludes e1 "does not have access" = true
  · rw [if_pos h]
    rfl
  · rw [if_neg h]
    rfl

/-- Claim C2 (counterexample to the claim as stated): a run in which both
security queries throw, while traffic, top paths and every performance
probe succeed, yields the zeroed security section but an EMPTY warning
list — no warning referencing "security" is recorded. -/
theorem assembleSnapshot_security_counterexample :
    (assembleSnapshot 2026 1 "UTC" [⟨"2026-01-01", 3, 1, 10⟩] []
        (.ok []) (.error "HTTP 500") (.error "HTTP 500")
        (fun _ _ => .ok emptyRunResult)
        ⟨"2026-02-01T06:00:00.000Z", 0, 0, 0, 0⟩).security = ⟨0, 0, []⟩
    ∧ (assembleSnapshot 2026 1 "UTC" [⟨"2026-01-01", 3, 1, 10⟩] []
        (.ok []) (.error "HTTP 500") (.error "HTTP 500")
        (fun _ _ => .ok emptyRunResult)
        ⟨"2026-02-01T06:00:00.000Z", 0, 0, 0, 0⟩).warnings = [] :=
  ⟨rfl, rfl⟩

end WebsiteReports
